import Mathlib

/-!
Shallow embedding of the `EncryptedSurvey` Solidity contract
(`src/contracts/EncryptedSurvey.sol`).

Conventions of the embedding:
* Addresses are `Nat`; the zero address is `0`.
* An `euint32` ciphertext handle (a `bytes32` value on chain) is a `Nat`;
  the handle `0` models `bytes32(0)`, the value a freshly allocated
  `new euint32[](n)` slot holds.
* The external FHE coprocessor is out of scope of the repository (the spec's
  explicit non-goal).  Its operations `FHE.fromExternal` and `FHE.add` are
  modelled as allocations of fresh, never-zero handles drawn from a counter
  `nextHandle` carried in the state; `FHE.allowThis` and `FHE.allow` append
  to explicit permission lists `aclThis` and `acl`.
* Solidity `mapping`s are total functions with default `0` / `false` / `[]`.
* A reverting call returns `Except.error e`; since the error carries no
  state, the EVM's transaction rollback is automatic.
* `require(cond, "MSG")` reverts are distinguished from the contract's named
  custom errors by the `RequireFailure` constructor carrying the message.
* `msg.sender` and `block.timestamp` are passed as explicit arguments.
-/

abbrev Address := Nat

abbrev Handle := Nat

/-- The contract's named custom errors, plus `RequireFailure` for
`require(cond, "MSG")` string reverts. -/
inductive SurveyError where
  | SurveyAlreadyAnswered
  | InvalidOption
  | InvalidViewer
  | OnlyAdmin
  | RequireFailure (msg : String)
deriving DecidableEq, Repr

/-- The `ViewerRegistry` struct: the `viewers` array plus the three
per-address mappings. -/
structure ViewerRegistry where
  viewers : List Address
  isAuthorized : Address → Bool
  accessLevel : Address → Nat
  accessExpiry : Address → Nat

/-- The full storage of the `EncryptedSurvey` contract, together with the
model of the FHE coprocessor's permission state (`aclThis`, `acl`) and the
fresh-handle counter `nextHandle`. -/
structure SurveyState where
  admin : Address
  surveyTitle : String
  surveyDescription : String
  options : List String
  encryptedTallies : List Handle
  hasRespondedM : Address → Bool
  userVotes : Address → List Nat
  viewerRegistry : ViewerRegistry
  isActive : Bool
  surveyDeadline : Nat
  aclThis : List Handle
  acl : List (Handle × Address)
  nextHandle : Nat

/-- `_allowTalliesForViewer`: grant the viewer decrypt permission on every
currently non-zero tally handle. -/
def allowTalliesForViewer (s : SurveyState) (viewer : Address) : SurveyState :=
  { s with acl :=
      (s.encryptedTallies.filterMap fun h =>
        if h ≠ 0 then some (h, viewer) else none) ++ s.acl }

/-- `_refreshViewerAccess`: after the tally at `optionIndex` changed, grant
decrypt permission on it to the admin and to every registered non-admin
viewer (skipping it when the handle is zero). -/
def refreshViewerAccess (s : SurveyState) (optionIndex : Nat) : SurveyState :=
  let tally := s.encryptedTallies.getD optionIndex 0
  let s1 := if tally ≠ 0 then { s with acl := (tally, s.admin) :: s.acl } else s
  { s1 with acl :=
      (s.viewerRegistry.viewers.filterMap fun v =>
        if v ≠ s.admin ∧ tally ≠ 0 then some (tally, v) else none) ++ s1.acl }

/-- The tally-update sequence shared by `submitResponse` and each iteration
of `submitBatchResponse`'s loop: `FHE.fromExternal`, `FHE.add`, store the
new handle, `FHE.allowThis`, `_refreshViewerAccess`.  The two FHE calls
allocate fresh non-zero handles. -/
def recordVote (s : SurveyState) (optionIndex : Nat) : SurveyState :=
  let s1 := { s with nextHandle := s.nextHandle + 1 }
  let newTally := s1.nextHandle + 1
  let s2 := { s1 with
    nextHandle := s1.nextHandle + 1,
    encryptedTallies := s1.encryptedTallies.set optionIndex newTally }
  let s3 := { s2 with aclThis := newTally :: s2.aclThis }
  refreshViewerAccess s3 optionIndex

/-- `_authorizeViewerWithRole` (the private helper): reject the zero
address, add the viewer to the registry if absent, set the role, set the
expiry only when it is positive, then allow all non-zero tallies. -/
def authorizeViewerInner (s : SurveyState) (viewer : Address) (role expiry : Nat) :
    Except SurveyError SurveyState :=
  if viewer = 0 then .error .InvalidViewer
  else
    let r := s.viewerRegistry
    let r1 := if r.isAuthorized viewer then r
      else { r with
        isAuthorized := fun a => if a = viewer then true else r.isAuthorized a,
        viewers := r.viewers ++ [viewer] }
    let r2 := { r1 with
      accessLevel := fun a => if a = viewer then role else r1.accessLevel a }
    let r3 := if expiry > 0 then
        { r2 with
          accessExpiry := fun a => if a = viewer then expiry else r2.accessExpiry a }
      else r2
    .ok (allowTalliesForViewer { s with viewerRegistry := r3 } viewer)

/-- The constructor: requires a non-empty options list, initializes every
tally slot to the zero handle, activates the survey and authorizes the
admin as a Basic viewer with no expiry. -/
def mkSurvey (sender : Address) (title description : String)
    (options : List String) (deadline : Nat) : Except SurveyError SurveyState :=
  if options.length > 0 then
    authorizeViewerInner
      { admin := sender
        surveyTitle := title
        surveyDescription := description
        options := options
        encryptedTallies := List.replicate options.length 0
        hasRespondedM := fun _ => false
        userVotes := fun _ => []
        viewerRegistry :=
          { viewers := []
            isAuthorized := fun _ => false
            accessLevel := fun _ => 0
            accessExpiry := fun _ => 0 }
        isActive := true
        surveyDeadline := deadline
        aclThis := []
        acl := []
        nextHandle := 0 }
      sender 0 0
  else .error (.RequireFailure "OPTIONS_REQUIRED")

/-- `optionsCount()` view. -/
def optionsCount (s : SurveyState) : Nat := s.options.length

/-- `getOptionLabel` view: reverts with `InvalidOption` past the end. -/
def getOptionLabel (s : SurveyState) (optionIndex : Nat) : Except SurveyError String :=
  if s.options.length ≤ optionIndex then .error .InvalidOption
  else .ok (s.options.getD optionIndex "")

/-- `hasResponded` view. -/
def hasResponded (s : SurveyState) (account : Address) : Bool :=
  s.hasRespondedM account

/-- `getEncryptedTally` view: reverts with `InvalidOption` past the end. -/
def getEncryptedTally (s : SurveyState) (optionIndex : Nat) : Except SurveyError Handle :=
  if s.options.length ≤ optionIndex then .error .InvalidOption
  else .ok (s.encryptedTallies.getD optionIndex 0)

/-- `getUserVotes` view. -/
def getUserVotes (s : SurveyState) (user : Address) : List Nat :=
  s.userVotes user

/-- The `surveyActive` modifier checks, shared by the submit and withdraw
operations; `none` means both `require`s pass. -/
def surveyActiveCheck (blockTimestamp : Nat) (s : SurveyState) : Option SurveyError :=
  if !s.isActive then some (.RequireFailure "SURVEY_NOT_ACTIVE")
  else if s.surveyDeadline < blockTimestamp then some (.RequireFailure "SURVEY_EXPIRED")
  else none

/-- `submitResponse`: guarded by `surveyActive`, option validity and the
not-yet-responded flag; on success records the vote into the tally, marks
the sender as responded and appends the option to the sender's vote list. -/
def submitResponse (blockTimestamp : Nat) (sender : Address) (s : SurveyState)
    (optionIndex : Nat) (encryptedVote : Nat) (proof : List Nat) :
    Except SurveyError SurveyState :=
  match surveyActiveCheck blockTimestamp s with
  | some e => .error e
  | none =>
    if s.options.length ≤ optionIndex then .error .InvalidOption
    else if s.hasRespondedM sender then .error .SurveyAlreadyAnswered
    else
      let _ := encryptedVote
      let _ := proof
      let s1 := recordVote s optionIndex
      .ok { s1 with
        hasRespondedM := fun a => if a = sender then true else s1.hasRespondedM a,
        userVotes := fun a =>
          if a = sender then s1.userVotes a ++ [optionIndex] else s1.userVotes a }

/-- The loop of `submitBatchResponse`: validates each index and records the
vote; an invalid index reverts the whole batch. -/
def processBatch : SurveyState → List Nat → Except SurveyError SurveyState
  | s, [] => .ok s
  | s, optionIndex :: rest =>
    if s.options.length ≤ optionIndex then .error .InvalidOption
    else processBatch (recordVote s optionIndex) rest

/-- `submitBatchResponse`: guarded by `surveyActive`, matching array
lengths, non-emptiness and the not-yet-responded flag; on success runs the
loop and marks the sender as responded.  Note: the source never appends to
`_userVotes` here. -/
def submitBatchResponse (blockTimestamp : Nat) (sender : Address) (s : SurveyState)
    (optionIndices : List Nat) (encryptedVotes : List Nat) (proofs : List (List Nat)) :
    Except SurveyError SurveyState :=
  match surveyActiveCheck blockTimestamp s with
  | some e => .error e
  | none =>
    if !(optionIndices.length = encryptedVotes.length ∧
        encryptedVotes.length = proofs.length) then
      .error (.RequireFailure "ARRAY_LENGTH_MISMATCH")
    else if optionIndices.length = 0 then .error (.RequireFailure "EMPTY_BATCH")
    else if s.hasRespondedM sender then .error .SurveyAlreadyAnswered
    else
      (processBatch s optionIndices).map fun s1 =>
        { s1 with
          hasRespondedM := fun a => if a = sender then true else s1.hasRespondedM a }

/-- `authorizeViewer` (admin only): Basic role, no expiry. -/
def authorizeViewer (sender : Address) (s : SurveyState) (viewer : Address) :
    Except SurveyError SurveyState :=
  if sender ≠ s.admin then .error .OnlyAdmin
  else authorizeViewerInner s viewer 0 0

/-- `authorizeViewerWithRole` (admin only). -/
def authorizeViewerWithRole (sender : Address) (s : SurveyState)
    (viewer : Address) (role expiryTimestamp : Nat) : Except SurveyError SurveyState :=
  if sender ≠ s.admin then .error .OnlyAdmin
  else authorizeViewerInner s viewer role expiryTimestamp

/-- `closeSurvey` (admin only). -/
def closeSurvey (sender : Address) (s : SurveyState) : Except SurveyError SurveyState :=
  if sender ≠ s.admin then .error .OnlyAdmin
  else .ok { s with isActive := false }

/-- `reopenSurvey` (admin only, only before the deadline). -/
def reopenSurvey (blockTimestamp : Nat) (sender : Address) (s : SurveyState) :
    Except SurveyError SurveyState :=
  if sender ≠ s.admin then .error .OnlyAdmin
  else if s.surveyDeadline < blockTimestamp then
    .error (.RequireFailure "DEADLINE_PASSED")
  else .ok { s with isActive := true }

/-- `extendDeadline` (admin only, must strictly increase). -/
def extendDeadline (sender : Address) (s : SurveyState) (newDeadline : Nat) :
    Except SurveyError SurveyState :=
  if sender ≠ s.admin then .error .OnlyAdmin
  else if newDeadline ≤ s.surveyDeadline then
    .error (.RequireFailure "NEW_DEADLINE_MUST_BE_LATER")
  else .ok { s with surveyDeadline := newDeadline }

/-- The swap-and-pop removal loop of `revokeViewer`: the first occurrence of
the viewer is overwritten with `viewers[viewers.length - 1]` and the last
slot is popped. -/
def removeViewerSwapPop (l : List Address) (viewer : Address) : List Address :=
  match l.findIdx? (· == viewer) with
  | none => l
  | some i => (l.set i (l.getD (l.length - 1) 0)).take (l.length - 1)

/-- `revokeViewer` (admin only): requires the viewer to be authorized,
clears the three mappings and removes the viewer from the array. -/
def revokeViewer (sender : Address) (s : SurveyState) (viewer : Address) :
    Except SurveyError SurveyState :=
  if sender ≠ s.admin then .error .OnlyAdmin
  else if !s.viewerRegistry.isAuthorized viewer then
    .error (.RequireFailure "VIEWER_NOT_AUTHORIZED")
  else
    let r := s.viewerRegistry
    .ok { s with viewerRegistry :=
      { viewers := removeViewerSwapPop r.viewers viewer
        isAuthorized := fun a => if a = viewer then false else r.isAuthorized a
        accessLevel := fun a => if a = viewer then 0 else r.accessLevel a
        accessExpiry := fun a => if a = viewer then 0 else r.accessExpiry a } }

/-- `hasValidAccess` view: authorized, and the expiry (when set) has not
passed. -/
def hasValidAccess (blockTimestamp : Nat) (s : SurveyState) (viewer : Address) : Bool :=
  if !s.viewerRegistry.isAuthorized viewer then false
  else
    let expiry := s.viewerRegistry.accessExpiry viewer
    if 0 < expiry ∧ expiry < blockTimestamp then false else true

/-- `withdrawAndResubmit`: guarded by `surveyActive` and a previous vote;
clears the responded flag and the vote list without touching the tallies. -/
def withdrawAndResubmit (blockTimestamp : Nat) (sender : Address) (s : SurveyState) :
    Except SurveyError SurveyState :=
  match surveyActiveCheck blockTimestamp s with
  | some e => .error e
  | none =>
    if !s.hasRespondedM sender then .error (.RequireFailure "NO_PREVIOUS_VOTE")
    else
      .ok { s with
        hasRespondedM := fun a => if a = sender then false else s.hasRespondedM a,
        userVotes := fun a => if a = sender then [] else s.userVotes a }

/-- One external transaction against the deployed contract, tagged with the
`block.timestamp` and `msg.sender` of its call where relevant. -/
inductive Op where
  | submitResponse (ts sender optionIndex encryptedVote : Nat) (proof : List Nat)
  | submitBatchResponse (ts sender : Nat) (optionIndices encryptedVotes : List Nat)
      (proofs : List (List Nat))
  | authorizeViewer (sender viewer : Nat)
  | authorizeViewerWithRole (sender viewer role expiry : Nat)
  | closeSurvey (sender : Nat)
  | reopenSurvey (ts sender : Nat)
  | extendDeadline (sender newDeadline : Nat)
  | revokeViewer (sender viewer : Nat)
  | withdrawAndResubmit (ts sender : Nat)
deriving DecidableEq

/-- Run one transaction. -/
def execOp (o : Op) (s : SurveyState) : Except SurveyError SurveyState :=
  match o with
  | .submitResponse ts sender i ev pf => submitResponse ts sender s i ev pf
  | .submitBatchResponse ts sender idxs evs pfs =>
      submitBatchResponse ts sender s idxs evs pfs
  | .authorizeViewer sender v => authorizeViewer sender s v
  | .authorizeViewerWithRole sender v role e => authorizeViewerWithRole sender s v role e
  | .closeSurvey sender => closeSurvey sender s
  | .reopenSurvey ts sender => reopenSurvey ts sender s
  | .extendDeadline sender nd => extendDeadline sender s nd
  | .revokeViewer sender v => revokeViewer sender s v
  | .withdrawAndResubmit ts sender => withdrawAndResubmit ts sender s

/-- The state after a transaction: a reverted transaction leaves the state
unchanged. -/
def applyOp (o : Op) (s : SurveyState) : SurveyState :=
  match execOp o s with
  | .ok s' => s'
  | .error _ => s

/-- States reachable from `s0` by any sequence of transactions. -/
inductive ReachableFrom (s0 : SurveyState) : SurveyState → Prop
  | refl : ReachableFrom s0 s0
  | step (o : Op) {s : SurveyState} :
      ReachableFrom s0 s → ReachableFrom s0 (applyOp o s)

/-! ### Basic helper lemmas -/

theorem replicate_getD_self (n i : Nat) (a : Handle) :
    (List.replicate n a).getD i a = a := by
  induction n generalizing i with
  | zero => cases i <;> rfl
  | succ n ih =>
    cases i with
    | zero => rfl
    | succ j => exact ih j

theorem allowTalliesForViewer_proj (s : SurveyState) (v : Address) :
    (allowTalliesForViewer s v).admin = s.admin ∧
    (allowTalliesForViewer s v).options = s.options ∧
    (allowTalliesForViewer s v).encryptedTallies = s.encryptedTallies ∧
    (allowTalliesForViewer s v).viewerRegistry = s.viewerRegistry ∧
    (allowTalliesForViewer s v).isActive = s.isActive ∧
    (allowTalliesForViewer s v).surveyDeadline = s.surveyDeadline ∧
    (allowTalliesForViewer s v).hasRespondedM = s.hasRespondedM ∧
    (allowTalliesForViewer s v).userVotes = s.userVotes :=
  ⟨rfl, rfl, rfl, rfl, rfl, rfl, rfl, rfl⟩

/-- Claim C6: immediately after construction with a non-empty options list of
length n, `optionsCount` returns n and every tally slot holds the zero
ciphertext handle. -/
theorem tallies_start_at_zero (sender : Address) (title description : String)
    (options : List String) (deadline : Nat) (s0 : SurveyState)
    (h : mkSurvey sender title description options deadline = Except.ok s0) :
    optionsCount s0 = options.length ∧
    ∀ i, i < options.length → getEncryptedTally s0 i = Except.ok 0 := by
  unfold mkSurvey at h
  by_cases hlen : options.length > 0
  · rw [if_pos hlen] at h
    unfold authorizeViewerInner at h
    by_cases hs : sender = 0
    · rw [if_pos hs] at h
      exact Except.noConfusion h
    · rw [if_neg hs] at h
      dsimp only at h
      injection h with h
      subst h
      refine ⟨rfl, ?_⟩
      intro i hi
      unfold getEncryptedTally
      rw [if_neg (by exact Nat.not_le.mpr hi)]
      show Except.ok ((List.replicate options.length 0).getD i 0) = Except.ok 0
      rw [replicate_getD_self]
  · rw [if_neg hlen] at h
    exact Except.noConfusion h

def exSurvey2 : SurveyState :=
  match mkSurvey 1 "t" "d" ["x", "y"] 100 with
  | .ok s => s
  | .error _ =>
    ⟨0, "", "", [], [], fun _ => false, fun _ => [],
      ⟨[], fun _ => false, fun _ => 0, fun _ => 0⟩, false, 0, [], [], 0⟩

theorem tallies_start_at_zero_witness :
    optionsCount exSurvey2 = 2 ∧ getEncryptedTally exSurvey2 0 = Except.ok 0 := by
  have h := tallies_start_at_zero 1 "t" "d" ["x", "y"] 100 exSurvey2 rfl
  exact ⟨h.1, h.2 0 (by decide)⟩

/-- Claim C7: `closeSurvey` by the admin sets `isActive` to false, a subsequent
`reopenSurvey` by the admin (before the deadline) sets it back to true, and
both calls revert with `OnlyAdmin` for any non-admin caller. -/
theorem close_reopen_toggle (ts sender : Nat) (s s1 : SurveyState) :
    (sender = s.admin →
      closeSurvey sender s = Except.ok { s with isActive := false }) ∧
    (sender = s.admin → closeSurvey sender s = Except.ok s1 →
      ts ≤ s1.surveyDeadline →
      reopenSurvey ts sender s1 = Except.ok { s1 with isActive := true }) ∧
    (sender ≠ s.admin →
      closeSurvey sender s = Except.error SurveyError.OnlyAdmin ∧
      reopenSurvey ts sender s = Except.error SurveyError.OnlyAdmin) := by
  refine ⟨?_, ?_, ?_⟩
  · intro hs
    unfold closeSurvey
    rw [if_neg (by simp [hs])]
  · intro hs hc hdl
    unfold closeSurvey at hc
    rw [if_neg (by simp [hs])] at hc
    injection hc with hc
    unfold reopenSurvey
    rw [if_neg (by simp [hs, ← hc]), if_neg (by exact Nat.not_lt.mpr hdl)]
  · intro hs
    unfold closeSurvey reopenSurvey
    rw [if_pos hs, if_pos hs]
    exact ⟨rfl, rfl⟩

theorem close_reopen_toggle_witness :
    closeSurvey 1 exSurvey2 = Except.ok { exSurvey2 with isActive := false } ∧
    reopenSurvey 0 1 { exSurvey2 with isActive := false } =
      Except.ok { { exSurvey2 with isActive := false } with isActive := true } ∧
    closeSurvey 5 exSurvey2 = Except.error SurveyError.OnlyAdmin := by
  have h := close_reopen_toggle 0 1 exSurvey2 { exSurvey2 with isActive := false }
  have h5 := close_reopen_toggle 0 5 exSurvey2 exSurvey2
  exact ⟨h.1 rfl, h.2.1 rfl (h.1 rfl) (by decide), (h5.2.2 (by decide)).1⟩

theorem surveyActiveCheck_none (ts : Nat) (s : SurveyState)
    (hAct : s.isActive = true) (hDl : ts ≤ s.surveyDeadline) :
    surveyActiveCheck ts s = none := by
  unfold surveyActiveCheck
  rw [hAct]
  simp [Nat.not_lt.mpr hDl]

/-- Claim C2: a caller who has already responded is rejected with
`SurveyAlreadyAnswered` by both `submitResponse` and `submitBatchResponse`
(under the stated guards), and the transaction leaves the state unchanged. -/
theorem duplicate_response_rejected (ts sender : Nat) (s : SurveyState)
    (idx ev : Nat) (pf : List Nat) (idxs evs : List Nat) (pfs : List (List Nat))
    (hResp : s.hasRespondedM sender = true)
    (hAct : s.isActive = true) (hDl : ts ≤ s.surveyDeadline)
    (hIdx : idx < s.options.length)
    (hIdxs : ∀ i ∈ idxs, i < s.options.length)
    (hLen1 : idxs.length = evs.length) (hLen2 : evs.length = pfs.length)
    (hNE : idxs ≠ []) :
    submitResponse ts sender s idx ev pf =
        Except.error SurveyError.SurveyAlreadyAnswered ∧
    submitBatchResponse ts sender s idxs evs pfs =
        Except.error SurveyError.SurveyAlreadyAnswered ∧
    applyOp (Op.submitResponse ts sender idx ev pf) s = s ∧
    applyOp (Op.submitBatchResponse ts sender idxs evs pfs) s = s := by
  have hchk := surveyActiveCheck_none ts s hAct hDl
  have h1 : submitResponse ts sender s idx ev pf =
      Except.error SurveyError.SurveyAlreadyAnswered := by
    unfold submitResponse
    rw [hchk]
    rw [if_neg (Nat.not_le.mpr hIdx)]
    simp [hResp]
  have h2 : submitBatchResponse ts sender s idxs evs pfs =
      Except.error SurveyError.SurveyAlreadyAnswered := by
    unfold submitBatchResponse
    rw [hchk]
    dsimp only
    rw [if_neg (by simp [hLen1, hLen2]),
      if_neg (by simpa [List.length_eq_zero] using hNE), if_pos hResp]
  refine ⟨h1, h2, ?_, ?_⟩
  · simp only [applyOp, execOp, h1]
  · simp only [applyOp, execOp, h2]

theorem duplicate_response_rejected_witness :
    submitResponse 0 2
        (applyOp (Op.submitResponse 0 2 0 7 [1]) exSurvey2) 0 7 [1] =
      Except.error SurveyError.SurveyAlreadyAnswered ∧
    submitBatchResponse 0 2
        (applyOp (Op.submitResponse 0 2 0 7 [1]) exSurvey2) [0, 1] [7, 8] [[1], [2]] =
      Except.error SurveyError.SurveyAlreadyAnswered := by
  have h := duplicate_response_rejected 0 2
    (applyOp (Op.submitResponse 0 2 0 7 [1]) exSurvey2) 0 7 [1]
    [0, 1] [7, 8] [[1], [2]] (by decide) (by decide) (by decide) (by decide)
    (by decide) (by decide) (by decide) (by decide)
  exact ⟨h.1, h.2.1⟩

/-- Claim C4: `withdrawAndResubmit` (survey active, before the deadline, caller
has responded) clears the caller's responded flag and vote list while the
tallies, options, viewer registry, active flag and deadline are
unchanged. -/
theorem withdraw_clears_flag_and_frames (ts sender : Nat) (s : SurveyState)
    (hAct : s.isActive = true) (hDl : ts ≤ s.surveyDeadline)
    (hResp : s.hasRespondedM sender = true) :
    ∃ s', withdrawAndResubmit ts sender s = Except.ok s' ∧
      s'.hasRespondedM sender = false ∧
      getUserVotes s' sender = [] ∧
      s'.encryptedTallies = s.encryptedTallies ∧
      s'.options = s.options ∧
      s'.viewerRegistry = s.viewerRegistry ∧
      s'.isActive = s.isActive ∧
      s'.surveyDeadline = s.surveyDeadline ∧
      ∀ a, a ≠ sender →
        s'.hasRespondedM a = s.hasRespondedM a ∧ getUserVotes s' a = getUserVotes s a := by
  have hchk := surveyActiveCheck_none ts s hAct hDl
  refine ⟨{ s with
      hasRespondedM := fun a => if a = sender then false else s.hasRespondedM a,
      userVotes := fun a => if a = sender then [] else s.userVotes a },
    ?_, by simp, by simp [getUserVotes], rfl, rfl, rfl, rfl, rfl, ?_⟩
  · unfold withdrawAndResubmit
    rw [hchk]
    simp [hResp]
  · intro a ha
    simp [getUserVotes, ha]

theorem withdraw_clears_flag_and_frames_witness :
    (applyOp (Op.submitResponse 0 2 0 7 [1]) exSurvey2).hasRespondedM 2 = true ∧
    ∃ s', withdrawAndResubmit 0 2 (applyOp (Op.submitResponse 0 2 0 7 [1]) exSurvey2) =
        Except.ok s' ∧ s'.hasRespondedM 2 = false := by
  have h := withdraw_clears_flag_and_frames 0 2
    (applyOp (Op.submitResponse 0 2 0 7 [1]) exSurvey2) (by decide) (by decide) (by decide)
  obtain ⟨s', hs', hflag, -⟩ := h
  exact ⟨by decide, s', hs', hflag⟩

theorem authorizeViewerInner_expiry_pos (s : SurveyState) (v : Address)
    (role e : Nat) (s' : SurveyState) (hv : v ≠ 0) (he : 0 < e)
    (h : authorizeViewerInner s v role e = Except.ok s') :
    s'.admin = s.admin ∧
    s'.viewerRegistry.isAuthorized v = true ∧
    s'.viewerRegistry.accessExpiry v = e := by
  unfold authorizeViewerInner at h
  rw [if_neg hv] at h
  dsimp only at h
  rw [if_pos he] at h
  injection h with h
  subst h
  refine ⟨rfl, ?_, by simp [allowTalliesForViewer]⟩
  by_cases ha : s.viewerRegistry.isAuthorized v
  · simp [allowTalliesForViewer, if_pos ha, ha]
  · simp [allowTalliesForViewer, if_neg ha]

theorem authorizeViewerInner_expiry_zero (s : SurveyState) (v : Address)
    (role : Nat) (s' : SurveyState) (hv : v ≠ 0)
    (h : authorizeViewerInner s v role 0 = Except.ok s') :
    s'.admin = s.admin ∧
    s'.viewerRegistry.isAuthorized v = true ∧
    s'.viewerRegistry.accessExpiry = s.viewerRegistry.accessExpiry := by
  unfold authorizeViewerInner at h
  rw [if_neg hv] at h
  dsimp only at h
  rw [if_neg (by simp)] at h
  injection h with h
  subst h
  refine ⟨rfl, ?_, ?_⟩ <;> by_cases ha : s.viewerRegistry.isAuthorized v <;>
    simp [allowTalliesForViewer, ha]

/-- Claim C10: a viewer first authorized with a non-zero expiry and then
re-authorized with expiry 0 (as `authorizeViewer` does) keeps the old
expiry, so `hasValidAccess` still turns false once the timestamp passes
it. -/
theorem reauthorize_keeps_expiry (s : SurveyState) (v T role ts : Nat)
    (s1 s2 : SurveyState) (hv : v ≠ 0) (hT : 0 < T)
    (h1 : authorizeViewerWithRole s.admin s v role T = Except.ok s1)
    (h2 : authorizeViewer s.admin s1 v = Except.ok s2)
    (hts : T < ts) :
    s2.viewerRegistry.accessExpiry v = T ∧ hasValidAccess ts s2 v = false := by
  unfold authorizeViewerWithRole at h1
  rw [if_neg (by simp)] at h1
  obtain ⟨hadm1, hauth1, hexp1⟩ := authorizeViewerInner_expiry_pos s v role T s1 hv hT h1
  unfold authorizeViewer at h2
  rw [if_neg (by simp [hadm1])] at h2
  obtain ⟨hadm2, hauth2, hexp2⟩ := authorizeViewerInner_expiry_zero s1 v 0 s2 hv h2
  have hexp : s2.viewerRegistry.accessExpiry v = T := by rw [hexp2, hexp1]
  refine ⟨hexp, ?_⟩
  unfold hasValidAccess
  rw [hauth2]
  simp [hexp, hT, hts]

def exSurveyC10 : SurveyState :=
  match (mkSurvey 1 "t" "d" ["x"] 100).bind
      (fun s => authorizeViewerWithRole 1 s 7 2 50) with
  | .ok s => s
  | .error _ =>
    ⟨0, "", "", [], [], fun _ => false, fun _ => [],
      ⟨[], fun _ => false, fun _ => 0, fun _ => 0⟩, false, 0, [], [], 0⟩

def exSurveyC10b : SurveyState :=
  match authorizeViewer 1 exSurveyC10 7 with
  | .ok s => s
  | .error _ =>
    ⟨0, "", "", [], [], fun _ => false, fun _ => [],
      ⟨[], fun _ => false, fun _ => 0, fun _ => 0⟩, false, 0, [], [], 0⟩

theorem reauthorize_keeps_expiry_witness :
    exSurveyC10b.viewerRegistry.accessExpiry 7 = 50 ∧
    hasValidAccess 60 exSurveyC10b 7 = false := by
  have h := reauthorize_keeps_expiry
    (match mkSurvey 1 "t" "d" ["x"] 100 with
      | .ok s => s
      | .error _ =>
        ⟨0, "", "", [], [], fun _ => false, fun _ => [],
          ⟨[], fun _ => false, fun _ => 0, fun _ => 0⟩, false, 0, [], [], 0⟩)
    7 50 2 60 exSurveyC10 exSurveyC10b (by decide) (by decide) rfl rfl (by decide)
  exact h

theorem findIdx?_some_spec {α : Type _} (p : α → Bool) :
    ∀ (l : List α) (st j : Nat), List.findIdx? p l st = some j →
      st ≤ j ∧ ∃ h : j - st < l.length, p (l.get ⟨j - st, h⟩) = true := by
  intro l
  induction l with
  | nil => intro st j h; simp [List.findIdx?] at h
  | cons x xs ih =>
    intro st j h
    rw [List.findIdx?_cons] at h
    by_cases hp : p x = true
    · rw [if_pos hp] at h
      injection h with h
      subst h
      refine ⟨le_refl _, by simp, ?_⟩
      simpa using hp
    · rw [if_neg hp] at h
      obtain ⟨hle, hlt, hpp⟩ := ih (st + 1) j h
      have hidx : j - st = (j - (st + 1)) + 1 := by omega
      refine ⟨by omega, by simp; omega, ?_⟩
      simp only [List.get_eq_getElem, hidx, List.getElem_cons_succ]
      simpa using hpp

theorem removeViewerSwapPop_mem (l : List Address) (v a : Address)
    (ha : a ∈ l) (hne : a ≠ v) : a ∈ removeViewerSwapPop l v := by
  unfold removeViewerSwapPop
  cases hf : l.findIdx? (· == v) with
  | none => exact ha
  | some i =>
    obtain ⟨-, hlt, hpi⟩ := findIdx?_some_spec (· == v) l 0 i hf
    simp only [Nat.sub_zero] at hlt hpi
    have hiv : l.get ⟨i, hlt⟩ = v := by simpa using hpi
    obtain ⟨j, hj, hja⟩ := List.mem_iff_getElem.mp ha
    have hji : j ≠ i := by
      intro hcon
      subst hcon
      rw [List.get_eq_getElem] at hiv
      exact hne (hja ▸ hiv ▸ rfl)
    have hlen : 0 < l.length := Nat.lt_of_le_of_lt (Nat.zero_le i) hlt
    by_cases hjlast : j = l.length - 1
    · -- a sits in the last slot; it is copied into slot i, which survives
      have hisml : i < l.length - 1 := by omega
      refine List.mem_iff_getElem.mpr ⟨i, ?_, ?_⟩
      · simpa [List.length_set] using hisml
      · rw [List.getElem_take, List.getElem_set_self]
        have hgd : l.getD (l.length - 1) 0 = l[j] := by
          rw [List.getD_eq_getElem l 0 (by omega : l.length - 1 < l.length)]
          simp [hjlast]
        rw [hgd, hja]
    · -- a sits strictly before the last slot and is untouched
      have hjsml : j < l.length - 1 := by omega
      refine List.mem_iff_getElem.mpr ⟨j, ?_, ?_⟩
      · simpa [List.length_set] using hjsml
      · rw [List.getElem_take, List.getElem_set_ne (fun h => hji h.symm)]
        exact hja

theorem refreshViewerAccess_proj (s : SurveyState) (i : Nat) :
    (refreshViewerAccess s i).admin = s.admin ∧
    (refreshViewerAccess s i).options = s.options ∧
    (refreshViewerAccess s i).encryptedTallies = s.encryptedTallies ∧
    (refreshViewerAccess s i).viewerRegistry = s.viewerRegistry ∧
    (refreshViewerAccess s i).hasRespondedM = s.hasRespondedM ∧
    (refreshViewerAccess s i).userVotes = s.userVotes ∧
    (refreshViewerAccess s i).isActive = s.isActive ∧
    (refreshViewerAccess s i).surveyDeadline = s.surveyDeadline ∧
    (refreshViewerAccess s i).nextHandle = s.nextHandle := by
  unfold refreshViewerAccess
  dsimp only
  split <;> exact ⟨rfl, rfl, rfl, rfl, rfl, rfl, rfl, rfl, rfl⟩

theorem recordVote_proj (s : SurveyState) (i : Nat) :
    (recordVote s i).admin = s.admin ∧
    (recordVote s i).options = s.options ∧
    (recordVote s i).encryptedTallies = s.encryptedTallies.set i (s.nextHandle + 2) ∧
    (recordVote s i).viewerRegistry = s.viewerRegistry ∧
    (recordVote s i).hasRespondedM = s.hasRespondedM ∧
    (recordVote s i).userVotes = s.userVotes ∧
    (recordVote s i).isActive = s.isActive ∧
    (recordVote s i).surveyDeadline = s.surveyDeadline := by
  unfold recordVote
  dsimp only
  have h := refreshViewerAccess_proj
    { s with
      nextHandle := s.nextHandle + 1 + 1,
      encryptedTallies := s.encryptedTallies.set i (s.nextHandle + 1 + 1),
      aclThis := (s.nextHandle + 1 + 1) :: s.aclThis } i
  exact ⟨h.1, h.2.1, h.2.2.1, h.2.2.2.1, h.2.2.2.2.1, h.2.2.2.2.2.1,
    h.2.2.2.2.2.2.1, h.2.2.2.2.2.2.2.1⟩

theorem processBatch_proj : ∀ (l : List Nat) (s s' : SurveyState),
    processBatch s l = Except.ok s' →
    s'.admin = s.admin ∧
    s'.options = s.options ∧
    s'.encryptedTallies.length = s.encryptedTallies.length ∧
    s'.viewerRegistry = s.viewerRegistry ∧
    s'.hasRespondedM = s.hasRespondedM ∧
    s'.userVotes = s.userVotes ∧
    s'.isActive = s.isActive ∧
    s'.surveyDeadline = s.surveyDeadline
  | [], s, s', h => by
    unfold processBatch at h
    injection h with h
    subst h
    exact ⟨rfl, rfl, rfl, rfl, rfl, rfl, rfl, rfl⟩
  | i :: rest, s, s', h => by
    unfold processBatch at h
    by_cases hi : s.options.length ≤ i
    · rw [if_pos hi] at h
      exact Except.noConfusion h
    · rw [if_neg hi] at h
      have ih := processBatch_proj rest (recordVote s i) s' h
      have hr := recordVote_proj s i
      refine ⟨ih.1.trans hr.1, ih.2.1.trans hr.2.1, ?_,
        ih.2.2.2.1.trans hr.2.2.2.1, ih.2.2.2.2.1.trans hr.2.2.2.2.1,
        ih.2.2.2.2.2.1.trans hr.2.2.2.2.2.1,
        ih.2.2.2.2.2.2.1.trans hr.2.2.2.2.2.2.1,
        ih.2.2.2.2.2.2.2.trans hr.2.2.2.2.2.2.2⟩
      rw [ih.2.2.1, hr.2.2.1, List.length_set]

theorem authorizeViewerInner_facts (s : SurveyState) (v : Address) (role e : Nat)
    (s' : SurveyState) (h : authorizeViewerInner s v role e = Except.ok s') :
    s'.admin = s.admin ∧
    s'.options = s.options ∧
    s'.encryptedTallies = s.encryptedTallies ∧
    s'.hasRespondedM = s.hasRespondedM ∧
    s'.userVotes = s.userVotes ∧
    s'.isActive = s.isActive ∧
    s'.surveyDeadline = s.surveyDeadline ∧
    s'.viewerRegistry.isAuthorized v = true ∧
    (s.viewerRegistry.isAuthorized v = false → v ∈ s'.viewerRegistry.viewers) ∧
    (∀ a, s.viewerRegistry.isAuthorized a = true →
      s'.viewerRegistry.isAuthorized a = true) ∧
    (∀ a, a ∈ s.viewerRegistry.viewers → a ∈ s'.viewerRegistry.viewers) ∧
    (∀ a, a ≠ v →
      s'.viewerRegistry.accessExpiry a = s.viewerRegistry.accessExpiry a) ∧
    (e = 0 → s'.viewerRegistry.accessExpiry = s.viewerRegistry.accessExpiry) ∧
    (∀ t, t ∈ s.encryptedTallies → t ≠ 0 → (t, v) ∈ s'.acl) := by
  unfold authorizeViewerInner at h
  by_cases hv : v = 0
  · rw [if_pos hv] at h
    exact Except.noConfusion h
  · rw [if_neg hv] at h
    dsimp only at h
    injection h with h
    subst h
    refine ⟨rfl, rfl, rfl, rfl, rfl, rfl, rfl, ?_, ?_, ?_, ?_, ?_, ?_, ?_⟩
    · by_cases he : e > 0 <;> by_cases ha : s.viewerRegistry.isAuthorized v <;>
        simp [allowTalliesForViewer, he, ha]
    · intro hna
      by_cases he : e > 0 <;> simp [allowTalliesForViewer, he, hna]
    · intro a haa
      by_cases he : e > 0 <;> by_cases ha : s.viewerRegistry.isAuthorized v <;>
        simp [allowTalliesForViewer, he, ha, haa]
    · intro a haa
      by_cases he : e > 0 <;> by_cases ha : s.viewerRegistry.isAuthorized v <;>
        simp [allowTalliesForViewer, he, ha, haa]
    · intro a hav
      by_cases he : e > 0 <;> by_cases ha : s.viewerRegistry.isAuthorized v <;>
        simp [allowTalliesForViewer, he, ha, hav]
    · intro hee
      subst hee
      by_cases ha : s.viewerRegistry.isAuthorized v <;>
        simp [allowTalliesForViewer, ha]
    · intro t ht ht0
      by_cases he : e > 0 <;> by_cases ha : s.viewerRegistry.isAuthorized v <;>
        simp [allowTalliesForViewer, he, ha, List.mem_filterMap] <;>
        exact Or.inl ⟨ht, ht0⟩

theorem surveyActiveCheck_none_iff (ts : Nat) (s : SurveyState) :
    surveyActiveCheck ts s = none ↔ s.isActive = true ∧ ts ≤ s.surveyDeadline := by
  unfold surveyActiveCheck
  by_cases hA : s.isActive <;> by_cases hD : s.surveyDeadline < ts <;>
    simp [hA, hD] <;> omega

theorem submitResponse_ok (ts sender : Nat) (s : SurveyState) (i ev : Nat)
    (pf : List Nat) (s' : SurveyState)
    (h : submitResponse ts sender s i ev pf = Except.ok s') :
    s.isActive = true ∧ ts ≤ s.surveyDeadline ∧ i < s.options.length ∧
    s.hasRespondedM sender = false ∧
    s' = { recordVote s i with
      hasRespondedM := fun a =>
        if a = sender then true else (recordVote s i).hasRespondedM a,
      userVotes := fun a =>
        if a = sender then (recordVote s i).userVotes a ++ [i]
        else (recordVote s i).userVotes a } := by
  unfold submitResponse at h
  cases hc : surveyActiveCheck ts s with
  | some e =>
    rw [hc] at h
    exact Except.noConfusion h
  | none =>
    rw [hc] at h
    dsimp only at h
    by_cases hi : s.options.length ≤ i
    · rw [if_pos hi] at h
      exact Except.noConfusion h
    · rw [if_neg hi] at h
      by_cases hr : s.hasRespondedM sender = true
      · rw [if_pos hr] at h
        exact Except.noConfusion h
      · rw [if_neg hr] at h
        injection h with h
        obtain ⟨hA, hD⟩ := (surveyActiveCheck_none_iff ts s).mp hc
        exact ⟨hA, hD, Nat.not_le.mp hi, by simpa using hr, h.symm⟩

theorem submitBatchResponse_ok (ts sender : Nat) (s : SurveyState)
    (idxs evs : List Nat) (pfs : List (List Nat)) (s' : SurveyState)
    (h : submitBatchResponse ts sender s idxs evs pfs = Except.ok s') :
    s.isActive = true ∧ ts ≤ s.surveyDeadline ∧
    s.hasRespondedM sender = false ∧ idxs ≠ [] ∧
    ∃ s1, processBatch s idxs = Except.ok s1 ∧
      s' = { s1 with
        hasRespondedM := fun a => if a = sender then true else s1.hasRespondedM a } := by
  unfold submitBatchResponse at h
  cases hc : surveyActiveCheck ts s with
  | some e =>
    rw [hc] at h
    exact Except.noConfusion h
  | none =>
    rw [hc] at h
    dsimp only at h
    by_cases hlen : idxs.length = evs.length ∧ evs.length = pfs.length
    · rw [if_neg (by simp [hlen.1, hlen.2])] at h
      by_cases hemp : idxs.length = 0
      · rw [if_pos hemp] at h
        exact Except.noConfusion h
      · rw [if_neg hemp] at h
        by_cases hr : s.hasRespondedM sender = true
        · rw [if_pos hr] at h
          exact Except.noConfusion h
        · rw [if_neg hr] at h
          obtain ⟨hA, hD⟩ := (surveyActiveCheck_none_iff ts s).mp hc
          cases hp : processBatch s idxs with
          | error e =>
            rw [hp] at h
            exact Except.noConfusion h
          | ok s1 =>
            rw [hp] at h
            injection h with h
            refine ⟨hA, hD, by simpa using hr, ?_, s1, rfl, h.symm⟩
            intro hcon
            exact hemp (by simp [hcon])
    · rw [if_pos (by simpa using not_and_or.mp hlen)] at h
      exact Except.noConfusion h

theorem withdrawAndResubmit_ok (ts sender : Nat) (s s' : SurveyState)
    (h : withdrawAndResubmit ts sender s = Except.ok s') :
    s.isActive = true ∧ ts ≤ s.surveyDeadline ∧ s.hasRespondedM sender = true ∧
    s' = { s with
      hasRespondedM := fun a => if a = sender then false else s.hasRespondedM a,
      userVotes := fun a => if a = sender then [] else s.userVotes a } := by
  unfold withdrawAndResubmit at h
  cases hc : surveyActiveCheck ts s with
  | some e =>
    rw [hc] at h
    exact Except.noConfusion h
  | none =>
    rw [hc] at h
    dsimp only at h
    by_cases hr : s.hasRespondedM sender = true
    · rw [if_neg (by simp [hr])] at h
      injection h with h
      obtain ⟨hA, hD⟩ := (surveyActiveCheck_none_iff ts s).mp hc
      exact ⟨hA, hD, hr, h.symm⟩
    · rw [if_pos (by simpa using hr)] at h
      exact Except.noConfusion h

theorem closeSurvey_ok (sender : Nat) (s s' : SurveyState)
    (h : closeSurvey sender s = Except.ok s') :
    sender = s.admin ∧ s' = { s with isActive := false } := by
  unfold closeSurvey at h
  by_cases h1 : sender = s.admin
  · rw [if_neg (by simp [h1])] at h
    injection h with h
    exact ⟨h1, h.symm⟩
  · rw [if_pos h1] at h
    exact Except.noConfusion h

theorem reopenSurvey_ok (ts sender : Nat) (s s' : SurveyState)
    (h : reopenSurvey ts sender s = Except.ok s') :
    sender = s.admin ∧ ts ≤ s.surveyDeadline ∧ s' = { s with isActive := true } := by
  unfold reopenSurvey at h
  by_cases h1 : sender = s.admin
  · rw [if_neg (by simp [h1])] at h
    by_cases h2 : s.surveyDeadline < ts
    · rw [if_pos h2] at h
      exact Except.noConfusion h
    · rw [if_neg h2] at h
      injection h with h
      exact ⟨h1, Nat.not_lt.mp h2, h.symm⟩
  · rw [if_pos h1] at h
    exact Except.noConfusion h

theorem extendDeadline_ok (sender : Nat) (s : SurveyState) (nd : Nat)
    (s' : SurveyState) (h : extendDeadline sender s nd = Except.ok s') :
    sender = s.admin ∧ s.surveyDeadline < nd ∧
    s' = { s with surveyDeadline := nd } := by
  unfold extendDeadline at h
  by_cases h1 : sender = s.admin
  · rw [if_neg (by simp [h1])] at h
    by_cases h2 : nd ≤ s.surveyDeadline
    · rw [if_pos h2] at h
      exact Except.noConfusion h
    · rw [if_neg h2] at h
      injection h with h
      exact ⟨h1, Nat.not_le.mp h2, h.symm⟩
  · rw [if_pos h1] at h
    exact Except.noConfusion h

theorem revokeViewer_ok (sender : Nat) (s : SurveyState) (v : Address)
    (s' : SurveyState) (h : revokeViewer sender s v = Except.ok s') :
    sender = s.admin ∧ s.viewerRegistry.isAuthorized v = true ∧
    s' = { s with viewerRegistry :=
      { viewers := removeViewerSwapPop s.viewerRegistry.viewers v
        isAuthorized := fun a => if a = v then false else s.viewerRegistry.isAuthorized a
        accessLevel := fun a => if a = v then 0 else s.viewerRegistry.accessLevel a
        accessExpiry := fun a => if a = v then 0 else s.viewerRegistry.accessExpiry a } } := by
  unfold revokeViewer at h
  by_cases h1 : sender = s.admin
  · rw [if_neg (by simp [h1])] at h
    by_cases h2 : s.viewerRegistry.isAuthorized v = true
    · rw [if_neg (by simp [h2])] at h
      injection h with h
      exact ⟨h1, h2, h.symm⟩
    · rw [if_pos (by simpa using h2)] at h
      exact Except.noConfusion h
  · rw [if_pos h1] at h
    exact Except.noConfusion h

theorem authorizeViewer_ok (sender : Nat) (s : SurveyState) (v : Address)
    (s' : SurveyState) (h : authorizeViewer sender s v = Except.ok s') :
    sender = s.admin ∧ authorizeViewerInner s v 0 0 = Except.ok s' := by
  unfold authorizeViewer at h
  by_cases h1 : sender = s.admin
  · rw [if_neg (by simp [h1])] at h
    exact ⟨h1, h⟩
  · rw [if_pos h1] at h
    exact Except.noConfusion h

theorem authorizeViewerWithRole_ok (sender : Nat) (s : SurveyState)
    (v : Address) (role e : Nat) (s' : SurveyState)
    (h : authorizeViewerWithRole sender s v role e = Except.ok s') :
    sender = s.admin ∧ authorizeViewerInner s v role e = Except.ok s' := by
  unfold authorizeViewerWithRole at h
  by_cases h1 : sender = s.admin
  · rw [if_neg (by simp [h1])] at h
    exact ⟨h1, h⟩
  · rw [if_pos h1] at h
    exact Except.noConfusion h

theorem applyOp_frame (o : Op) (s : SurveyState) :
    (applyOp o s).admin = s.admin ∧
    (applyOp o s).options = s.options ∧
    (applyOp o s).encryptedTallies.length = s.encryptedTallies.length := by
  unfold applyOp
  cases he : execOp o s with
  | error e => exact ⟨rfl, rfl, rfl⟩
  | ok s' =>
    cases o with
    | submitResponse ts sender i ev pf =>
      obtain ⟨-, -, -, -, rfl⟩ := submitResponse_ok ts sender s i ev pf s' he
      have hr := recordVote_proj s i
      refine ⟨hr.1, hr.2.1, ?_⟩
      show (recordVote s i).encryptedTallies.length = _
      rw [hr.2.2.1, List.length_set]
    | submitBatchResponse ts sender idxs evs pfs =>
      obtain ⟨-, -, -, -, s1, hp, rfl⟩ :=
        submitBatchResponse_ok ts sender s idxs evs pfs s' he
      have hb := processBatch_proj idxs s s1 hp
      exact ⟨hb.1, hb.2.1, hb.2.2.1⟩
    | authorizeViewer sender v =>
      obtain ⟨-, hin⟩ := authorizeViewer_ok sender s v s' he
      have hf := authorizeViewerInner_facts s v 0 0 s' hin
      exact ⟨hf.1, hf.2.1, by rw [hf.2.2.1]⟩
    | authorizeViewerWithRole sender v role e2 =>
      obtain ⟨-, hin⟩ := authorizeViewerWithRole_ok sender s v role e2 s' he
      have hf := authorizeViewerInner_facts s v role e2 s' hin
      exact ⟨hf.1, hf.2.1, by rw [hf.2.2.1]⟩
    | closeSurvey sender =>
      obtain ⟨-, rfl⟩ := closeSurvey_ok sender s s' he
      exact ⟨rfl, rfl, rfl⟩
    | reopenSurvey ts sender =>
      obtain ⟨-, -, rfl⟩ := reopenSurvey_ok ts sender s s' he
      exact ⟨rfl, rfl, rfl⟩
    | extendDeadline sender nd =>
      obtain ⟨-, -, rfl⟩ := extendDeadline_ok sender s nd s' he
      exact ⟨rfl, rfl, rfl⟩
    | revokeViewer sender v =>
      obtain ⟨-, -, rfl⟩ := revokeViewer_ok sender s v s' he
      exact ⟨rfl, rfl, rfl⟩
    | withdrawAndResubmit ts sender =>
      obtain ⟨-, -, -, rfl⟩ := withdrawAndResubmit_ok ts sender s s' he
      exact ⟨rfl, rfl, rfl⟩

theorem mkSurvey_ok (sender : Address) (t d : String) (opts : List String)
    (dl : Nat) (s0 : SurveyState) (h : mkSurvey sender t d opts dl = Except.ok s0) :
    0 < opts.length ∧ sender ≠ 0 ∧
    s0.admin = sender ∧ s0.options = opts ∧
    s0.encryptedTallies = List.replicate opts.length 0 ∧
    s0.isActive = true ∧ s0.surveyDeadline = dl ∧
    s0.hasRespondedM = (fun _ => false) ∧ s0.userVotes = (fun _ => []) ∧
    s0.viewerRegistry.isAuthorized sender = true ∧
    sender ∈ s0.viewerRegistry.viewers ∧
    s0.viewerRegistry.accessExpiry = (fun _ => 0) := by
  unfold mkSurvey at h
  by_cases hl : opts.length > 0
  · rw [if_pos hl] at h
    have hz : sender ≠ 0 := by
      intro hcon
      rw [hcon] at h
      unfold authorizeViewerInner at h
      rw [if_pos rfl] at h
      exact Except.noConfusion h
    have hf := authorizeViewerInner_facts _ sender 0 0 s0 h
    exact ⟨hl, hz, hf.1, hf.2.1, hf.2.2.1, hf.2.2.2.2.2.1, hf.2.2.2.2.2.2.1,
      hf.2.2.2.1, hf.2.2.2.2.1, hf.2.2.2.2.2.2.2.1,
      hf.2.2.2.2.2.2.2.2.1 rfl, hf.2.2.2.2.2.2.2.2.2.2.2.2.1 rfl⟩
  · rw [if_neg hl] at h
    exact Except.noConfusion h

/-- Claim C9: in every reachable contract state the options array and the
encrypted-tallies array keep the (non-empty) deployment length, the option
labels never change, and `getOptionLabel` succeeds exactly when
`getEncryptedTally` succeeds, both reverting with `InvalidOption` past the
end. -/
theorem options_tallies_aligned (sender : Address) (t d : String)
    (opts : List String) (dl : Nat) (s0 s : SurveyState)
    (h0 : mkSurvey sender t d opts dl = Except.ok s0)
    (hr : ReachableFrom s0 s) :
    s.options = opts ∧ s.encryptedTallies.length = opts.length ∧
    0 < opts.length ∧
    (∀ i, i < opts.length →
      (∃ lbl, getOptionLabel s i = Except.ok lbl) ∧
      ∃ t2, getEncryptedTally s i = Except.ok t2) ∧
    (∀ i, opts.length ≤ i →
      getOptionLabel s i = Except.error SurveyError.InvalidOption ∧
      getEncryptedTally s i = Except.error SurveyError.InvalidOption) := by
  obtain ⟨hl, -, -, hopt, htal, -⟩ := mkSurvey_ok sender t d opts dl s0 h0
  have key : s.options = opts ∧ s.encryptedTallies.length = opts.length := by
    induction hr with
    | refl => exact ⟨hopt, by rw [htal, List.length_replicate]⟩
    | step o hrec ih =>
      exact ⟨(applyOp_frame o _).2.1.trans ih.1, (applyOp_frame o _).2.2.trans ih.2⟩
  refine ⟨key.1, key.2, hl, ?_, ?_⟩
  · intro i hi
    have hno : ¬s.options.length ≤ i := by rw [key.1]; omega
    exact ⟨⟨s.options.getD i "", by unfold getOptionLabel; rw [if_neg hno]⟩,
      ⟨s.encryptedTallies.getD i 0, by unfold getEncryptedTally; rw [if_neg hno]⟩⟩
  · intro i hi
    have hyes : s.options.length ≤ i := by rw [key.1]; omega
    exact ⟨by unfold getOptionLabel; rw [if_pos hyes],
      by unfold getEncryptedTally; rw [if_pos hyes]⟩

theorem options_tallies_aligned_witness :
    (applyOp (Op.submitResponse 0 3 1 7 [1]) exSurvey2).options = ["x", "y"] ∧
    (applyOp (Op.submitResponse 0 3 1 7 [1]) exSurvey2).encryptedTallies.length = 2 ∧
    getOptionLabel (applyOp (Op.submitResponse 0 3 1 7 [1]) exSurvey2) 5 =
      Except.error SurveyError.InvalidOption := by
  have h := options_tallies_aligned 1 "t" "d" ["x", "y"] 100 exSurvey2
    (applyOp (Op.submitResponse 0 3 1 7 [1]) exSurvey2) rfl
    (ReachableFrom.step (Op.submitResponse 0 3 1 7 [1]) ReachableFrom.refl)
  exact ⟨h.1, h.2.1, (h.2.2.2.2 5 (by decide)).1⟩

theorem applyOp_registry_preserve (o : Op) (s : SurveyState) (a : Address)
    (hnr : ∀ sender, o ≠ Op.revokeViewer sender a) :
    (s.viewerRegistry.isAuthorized a = true →
      (applyOp o s).viewerRegistry.isAuthorized a = true) ∧
    (a ∈ s.viewerRegistry.viewers → a ∈ (applyOp o s).viewerRegistry.viewers) := by
  unfold applyOp
  cases he : execOp o s with
  | error e => exact ⟨id, id⟩
  | ok s' =>
    cases o with
    | submitResponse ts sender i ev pf =>
      obtain ⟨-, -, -, -, rfl⟩ := submitResponse_ok ts sender s i ev pf s' he
      have hr := (recordVote_proj s i).2.2.2.1
      exact ⟨fun h => by
          show (recordVote s i).viewerRegistry.isAuthorized a = true
          rw [hr]; exact h,
        fun h => by
          show a ∈ (recordVote s i).viewerRegistry.viewers
          rw [hr]; exact h⟩
    | submitBatchResponse ts sender idxs evs pfs =>
      obtain ⟨-, -, -, -, s1, hp, rfl⟩ :=
        submitBatchResponse_ok ts sender s idxs evs pfs s' he
      have hb := (processBatch_proj idxs s s1 hp).2.2.2.1
      exact ⟨fun h => by
          show s1.viewerRegistry.isAuthorized a = true
          rw [hb]; exact h,
        fun h => by
          show a ∈ s1.viewerRegistry.viewers
          rw [hb]; exact h⟩
    | authorizeViewer sender v =>
      obtain ⟨-, hin⟩ := authorizeViewer_ok sender s v s' he
      have hf := authorizeViewerInner_facts s v 0 0 s' hin
      exact ⟨hf.2.2.2.2.2.2.2.2.2.1 a, hf.2.2.2.2.2.2.2.2.2.2.1 a⟩
    | authorizeViewerWithRole sender v role e2 =>
      obtain ⟨-, hin⟩ := authorizeViewerWithRole_ok sender s v role e2 s' he
      have hf := authorizeViewerInner_facts s v role e2 s' hin
      exact ⟨hf.2.2.2.2.2.2.2.2.2.1 a, hf.2.2.2.2.2.2.2.2.2.2.1 a⟩
    | closeSurvey sender =>
      obtain ⟨-, rfl⟩ := closeSurvey_ok sender s s' he
      exact ⟨id, id⟩
    | reopenSurvey ts sender =>
      obtain ⟨-, -, rfl⟩ := reopenSurvey_ok ts sender s s' he
      exact ⟨id, id⟩
    | extendDeadline sender nd =>
      obtain ⟨-, -, rfl⟩ := extendDeadline_ok sender s nd s' he
      exact ⟨id, id⟩
    | revokeViewer sender v =>
      obtain ⟨-, -, rfl⟩ := revokeViewer_ok sender s v s' he
      have hav : a ≠ v := by
        intro hcon
        exact hnr sender (by rw [hcon])
      exact ⟨fun h => by simpa [hav] using h,
        fun h => removeViewerSwapPop_mem s.viewerRegistry.viewers v a h hav⟩
    | withdrawAndResubmit ts sender =>
      obtain ⟨-, -, -, rfl⟩ := withdrawAndResubmit_ok ts sender s s' he
      exact ⟨id, id⟩

theorem applyOp_expiry_preserve (o : Op) (s : SurveyState) (a : Address)
    (h0 : s.viewerRegistry.accessExpiry a = 0)
    (hna : ∀ sender role e, 0 < e → o ≠ Op.authorizeViewerWithRole sender a role e) :
    (applyOp o s).viewerRegistry.accessExpiry a = 0 := by
  unfold applyOp
  cases he : execOp o s with
  | error e => exact h0
  | ok s' =>
    cases o with
    | submitResponse ts sender i ev pf =>
      obtain ⟨-, -, -, -, rfl⟩ := submitResponse_ok ts sender s i ev pf s' he
      show (recordVote s i).viewerRegistry.accessExpiry a = 0
      rw [(recordVote_proj s i).2.2.2.1]
      exact h0
    | submitBatchResponse ts sender idxs evs pfs =>
      obtain ⟨-, -, -, -, s1, hp, rfl⟩ :=
        submitBatchResponse_ok ts sender s idxs evs pfs s' he
      show s1.viewerRegistry.accessExpiry a = 0
      rw [(processBatch_proj idxs s s1 hp).2.2.2.1]
      exact h0
    | authorizeViewer sender v =>
      obtain ⟨-, hin⟩ := authorizeViewer_ok sender s v s' he
      have hf := authorizeViewerInner_facts s v 0 0 s' hin
      rw [hf.2.2.2.2.2.2.2.2.2.2.2.2.1 rfl]
      exact h0
    | authorizeViewerWithRole sender v role e2 =>
      obtain ⟨-, hin⟩ := authorizeViewerWithRole_ok sender s v role e2 s' he
      have hf := authorizeViewerInner_facts s v role e2 s' hin
      by_cases he2 : e2 = 0
      · subst he2
        rw [hf.2.2.2.2.2.2.2.2.2.2.2.2.1 rfl]
        exact h0
      · have hav : a ≠ v := by
          intro hcon
          exact hna sender role e2 (Nat.pos_of_ne_zero he2) (by rw [hcon])
        rw [hf.2.2.2.2.2.2.2.2.2.2.2.1 a hav]
        exact h0
    | closeSurvey sender =>
      obtain ⟨-, rfl⟩ := closeSurvey_ok sender s s' he
      exact h0
    | reopenSurvey ts sender =>
      obtain ⟨-, -, rfl⟩ := reopenSurvey_ok ts sender s s' he
      exact h0
    | extendDeadline sender nd =>
      obtain ⟨-, -, rfl⟩ := extendDeadline_ok sender s nd s' he
      exact h0
    | revokeViewer sender v =>
      obtain ⟨-, -, rfl⟩ := revokeViewer_ok sender s v s' he
      by_cases hav : a = v <;> simp [hav, h0]
    | withdrawAndResubmit ts sender =>
      obtain ⟨-, -, -, rfl⟩ := withdrawAndResubmit_ok ts sender s s' he
      exact h0

/-- Claim C1, counterexample: deploy with admin = address 1 (authorized by the
constructor), then call `revokeViewer(1)` as the admin.  The call succeeds
— `revokeViewer` does not exclude the admin — and afterwards the admin is
no longer authorized, is not in the viewer registry, and
`hasValidAccess(admin)` is false. -/
theorem admin_always_viewer_counterexample :
    ((mkSurvey 1 "t" "d" ["x"] 100).bind fun s => revokeViewer 1 s 1).map
        (fun s => (s.admin, s.viewerRegistry.isAuthorized 1,
          s.viewerRegistry.viewers.contains 1, hasValidAccess 0 s 1)) =
      Except.ok (1, false, false, false) := rfl

/-- Claim C1 (amended): after construction the admin is authorized in the viewer
registry with no expiry, so `hasValidAccess(admin)` is true at every
timestamp; the admin's registry authorization is preserved by every
operation except `revokeViewer(admin)` (which does remove it), and the
zero expiry is preserved by every operation except an
`authorizeViewerWithRole` call targeting the admin with a positive
expiry. -/
theorem admin_authorized_unless_revoked :
    (∀ (sender : Address) (t d : String) (opts : List String) (dl : Nat)
        (s0 : SurveyState), mkSurvey sender t d opts dl = Except.ok s0 →
      s0.viewerRegistry.isAuthorized s0.admin = true ∧
      s0.admin ∈ s0.viewerRegistry.viewers ∧
      s0.viewerRegistry.accessExpiry s0.admin = 0 ∧
      ∀ ts, hasValidAccess ts s0 s0.admin = true) ∧
    (∀ (s : SurveyState) (o : Op),
      s.viewerRegistry.isAuthorized s.admin = true →
      s.admin ∈ s.viewerRegistry.viewers →
      (∀ sender, o ≠ Op.revokeViewer sender s.admin) →
      (applyOp o s).admin = s.admin ∧
      (applyOp o s).viewerRegistry.isAuthorized s.admin = true ∧
      s.admin ∈ (applyOp o s).viewerRegistry.viewers) ∧
    (∀ (s : SurveyState) (o : Op),
      s.viewerRegistry.accessExpiry s.admin = 0 →
      (∀ sender role e, 0 < e →
        o ≠ Op.authorizeViewerWithRole sender s.admin role e) →
      (applyOp o s).viewerRegistry.accessExpiry s.admin = 0) ∧
    (∀ (s : SurveyState) (ts : Nat),
      s.viewerRegistry.isAuthorized s.admin = true →
      s.viewerRegistry.accessExpiry s.admin = 0 →
      hasValidAccess ts s s.admin = true) := by
  refine ⟨?_, ?_, ?_, ?_⟩
  · intro sender t d opts dl s0 h0
    obtain ⟨-, -, hadm, -, -, -, -, -, -, hauth, hmem, hexp⟩ :=
      mkSurvey_ok sender t d opts dl s0 h0
    rw [hadm]
    refine ⟨hauth, hmem, by rw [hexp], ?_⟩
    intro ts
    unfold hasValidAccess
    rw [hauth, hexp]
    simp
  · intro s o hauth hmem hnr
    have hp := applyOp_registry_preserve o s s.admin hnr
    exact ⟨(applyOp_frame o s).1, hp.1 hauth, hp.2 hmem⟩
  · intro s o hexp hna
    exact applyOp_expiry_preserve o s s.admin hexp hna
  · intro s ts hauth hexp
    unfold hasValidAccess
    rw [hauth, hexp]
    simp

theorem admin_authorized_unless_revoked_witness :
    exSurvey2.viewerRegistry.isAuthorized exSurvey2.admin = true ∧
    (applyOp (Op.closeSurvey 1) exSurvey2).viewerRegistry.isAuthorized
      exSurvey2.admin = true ∧
    hasValidAccess 12345 exSurvey2 exSurvey2.admin = true := by
  have h := admin_authorized_unless_revoked
  have h1 := h.1 1 "t" "d" ["x", "y"] 100 exSurvey2 rfl
  have h2 := h.2.1 exSurvey2 (Op.closeSurvey 1) h1.1 h1.2.1
    (fun sender hcon => Op.noConfusion hcon)
  exact ⟨h1.1, h2.2.1, h1.2.2.2 12345⟩

/-- Claim C3, evaluation at the failing input: a fresh survey with options
["x", "y"], then `submitBatchResponse([0, 1], ...)` from address 2.  The
call succeeds and sets the responded flag, but `getUserVotes` stays empty:
`submitBatchResponse` never appends to `_userVotes`, although the
repository's own test (`supports batch response submission`,
src/test/EncryptedSurvey.ts) asserts `getUserVotes` then equals [0, 1]. -/
theorem batch_does_not_record_user_votes :
    ((mkSurvey 1 "t" "d" ["x", "y"] 100).bind
        (fun s => submitBatchResponse 0 2 s [0, 1] [7, 8] [[1], [2]])).map
        (fun s => (hasResponded s 2, getUserVotes s 2)) =
      Except.ok (true, []) := rfl

/-- Claim C8, counterexample: `submitResponse` on a closed survey reverts with the
`require` string "SURVEY_NOT_ACTIVE", which is not one of the contract's
named custom errors, so not every guarded failure path reverts with a
named custom error. -/
theorem named_errors_counterexample :
    ((mkSurvey 1 "t" "d" ["x"] 100).bind (fun s => closeSurvey 1 s)).bind
        (fun s => submitResponse 0 2 s 0 7 [1]) =
      Except.error (SurveyError.RequireFailure "SURVEY_NOT_ACTIVE") := rfl

theorem authorizeViewerInner_ne_onlyAdmin (s : SurveyState) (v : Address)
    (role e : Nat) :
    authorizeViewerInner s v role e ≠ Except.error SurveyError.OnlyAdmin := by
  unfold authorizeViewerInner
  by_cases hv : v = 0 <;> simp [hv]

/-- Claim C8 (amended): the indexed getters revert with `InvalidOption` exactly
for out-of-range indices (`submitResponse` likewise once the `surveyActive`
guards pass), every admin-only function reverts with `OnlyAdmin` exactly
when the caller is not the admin, and a duplicate response reverts with
`SurveyAlreadyAnswered`; however some guarded failure paths revert with
`require`-style string messages rather than named custom errors. -/
theorem named_custom_errors (s : SurveyState) (ts sender i ev role e2 nd : Nat)
    (pf : List Nat) (v : Address) :
    ((getOptionLabel s i = Except.error SurveyError.InvalidOption) ↔
      s.options.length ≤ i) ∧
    ((getEncryptedTally s i = Except.error SurveyError.InvalidOption) ↔
      s.options.length ≤ i) ∧
    (s.isActive = true → ts ≤ s.surveyDeadline →
      ((submitResponse ts sender s i ev pf =
          Except.error SurveyError.InvalidOption) ↔ s.options.length ≤ i)) ∧
    (s.isActive = true → ts ≤ s.surveyDeadline → i < s.options.length →
      s.hasRespondedM sender = true →
      submitResponse ts sender s i ev pf =
        Except.error SurveyError.SurveyAlreadyAnswered) ∧
    ((closeSurvey sender s = Except.error SurveyError.OnlyAdmin) ↔
      sender ≠ s.admin) ∧
    ((reopenSurvey ts sender s = Except.error SurveyError.OnlyAdmin) ↔
      sender ≠ s.admin) ∧
    ((extendDeadline sender s nd = Except.error SurveyError.OnlyAdmin) ↔
      sender ≠ s.admin) ∧
    ((authorizeViewer sender s v = Except.error SurveyError.OnlyAdmin) ↔
      sender ≠ s.admin) ∧
    ((authorizeViewerWithRole sender s v role e2 =
        Except.error SurveyError.OnlyAdmin) ↔ sender ≠ s.admin) ∧
    ((revokeViewer sender s v = Except.error SurveyError.OnlyAdmin) ↔
      sender ≠ s.admin) := by
  refine ⟨?_, ?_, ?_, ?_, ?_, ?_, ?_, ?_, ?_, ?_⟩
  · by_cases hi : s.options.length ≤ i <;> simp [getOptionLabel, hi]
  · by_cases hi : s.options.length ≤ i <;> simp [getEncryptedTally, hi]
  · intro hA hD
    have hchk := surveyActiveCheck_none ts s hA hD
    unfold submitResponse
    rw [hchk]
    dsimp only
    by_cases hi : s.options.length ≤ i
    · simp [hi]
    · rw [if_neg hi]
      by_cases hr : s.hasRespondedM sender = true <;> simp [hr, hi]
  · intro hA hD hi hr
    have hchk := surveyActiveCheck_none ts s hA hD
    unfold submitResponse
    rw [hchk]
    dsimp only
    rw [if_neg (Nat.not_le.mpr hi), if_pos hr]
  · by_cases hs : sender = s.admin <;> simp [closeSurvey, hs]
  · by_cases hs : sender = s.admin
    · by_cases hd : s.surveyDeadline < ts <;> simp [reopenSurvey, hs, hd]
    · simp [reopenSurvey, hs]
  · by_cases hs : sender = s.admin
    · by_cases hd : nd ≤ s.surveyDeadline <;> simp [extendDeadline, hs, hd]
    · simp [extendDeadline, hs]
  · by_cases hs : sender = s.admin
    · simp only [authorizeViewer, hs]
      simp [authorizeViewerInner_ne_onlyAdmin]
    · simp [authorizeViewer, hs]
  · by_cases hs : sender = s.admin
    · simp only [authorizeViewerWithRole, hs]
      simp [authorizeViewerInner_ne_onlyAdmin]
    · simp [authorizeViewerWithRole, hs]
  · by_cases hs : sender = s.admin
    · by_cases ha : s.viewerRegistry.isAuthorized v = true <;>
        simp [revokeViewer, hs, ha]
    · simp [revokeViewer, hs]

theorem named_custom_errors_witness :
    ((getOptionLabel exSurvey2 5 = Except.error SurveyError.InvalidOption) ↔
      exSurvey2.options.length ≤ 5) ∧
    ((closeSurvey 9 exSurvey2 = Except.error SurveyError.OnlyAdmin) ↔
      9 ≠ exSurvey2.admin) ∧
    submitResponse 0 2 (applyOp (Op.submitResponse 0 2 0 7 [1]) exSurvey2) 0 7 [1] =
      Except.error SurveyError.SurveyAlreadyAnswered := by
  have h := named_custom_errors exSurvey2 0 9 5 7 0 0 0 [1] 3
  have h2 := named_custom_errors (applyOp (Op.submitResponse 0 2 0 7 [1]) exSurvey2)
    0 2 0 7 0 0 0 [1] 3
  exact ⟨h.1, h.2.2.2.2.1,
    h2.2.2.2.1 (by decide) (by decide) (by decide) (by decide)⟩

/-- The tally handle currently stored at `idx` carries decrypt permission
for the admin and for every registered viewer. -/
def TallyAllowedToAll (s : SurveyState) (idx : Nat) : Prop :=
  (s.encryptedTallies.getD idx 0, s.admin) ∈ s.acl ∧
  ∀ v ∈ s.viewerRegistry.viewers, (s.encryptedTallies.getD idx 0, v) ∈ s.acl

theorem refreshViewerAccess_acl_mono (s : SurveyState) (i : Nat) :
    ∀ p ∈ s.acl, p ∈ (refreshViewerAccess s i).acl := by
  intro p hp
  unfold refreshViewerAccess
  dsimp only
  split
  · exact List.mem_append_right _ (List.mem_cons_of_mem _ hp)
  · exact List.mem_append_right _ hp

theorem refreshViewerAccess_allows (s : SurveyState) (i : Nat)
    (h : s.encryptedTallies.getD i 0 ≠ 0) :
    TallyAllowedToAll (refreshViewerAccess s i) i := by
  have hp := refreshViewerAccess_proj s i
  unfold TallyAllowedToAll
  rw [hp.2.2.1, hp.1, hp.2.2.2.1]
  constructor
  · show _ ∈ (refreshViewerAccess s i).acl
    unfold refreshViewerAccess
    dsimp only
    rw [if_pos h]
    exact List.mem_append_right _ (List.mem_cons_self _ _)
  · intro v hv
    show _ ∈ (refreshViewerAccess s i).acl
    unfold refreshViewerAccess
    dsimp only
    rw [if_pos h]
    by_cases hva : v = s.admin
    · subst hva
      exact List.mem_append_right _ (List.mem_cons_self _ _)
    · exact List.mem_append_left _
        (List.mem_filterMap.mpr ⟨v, hv, by rw [if_pos ⟨hva, h⟩]⟩)

theorem recordVote_acl_mono (s : SurveyState) (i : Nat) :
    ∀ p ∈ s.acl, p ∈ (recordVote s i).acl := by
  intro p hp
  unfold recordVote
  dsimp only
  exact refreshViewerAccess_acl_mono _ i p hp

theorem recordVote_allows (s : SurveyState) (i : Nat)
    (hi : i < s.encryptedTallies.length) :
    TallyAllowedToAll (recordVote s i) i := by
  unfold recordVote
  dsimp only
  apply refreshViewerAccess_allows
  have hset : i < (s.encryptedTallies.set i (s.nextHandle + 1 + 1)).length := by
    rw [List.length_set]
    exact hi
  rw [List.getD_eq_getElem _ 0 hset, List.getElem_set_self]
  exact Nat.succ_ne_zero (s.nextHandle + 1)

theorem recordVote_preserves_allowed (s : SurveyState) (i j : Nat)
    (hne : i ≠ j) (h : TallyAllowedToAll s j) :
    TallyAllowedToAll (recordVote s i) j := by
  obtain ⟨h1, h2⟩ := h
  have hp := recordVote_proj s i
  unfold TallyAllowedToAll
  rw [hp.1, hp.2.2.1, hp.2.2.2.1]
  have hgd : (s.encryptedTallies.set i (s.nextHandle + 2)).getD j 0 =
      s.encryptedTallies.getD j 0 := by
    by_cases hj : j < s.encryptedTallies.length
    · rw [List.getD_eq_getElem _ _ (by rw [List.length_set]; exact hj),
        List.getD_eq_getElem _ _ hj, List.getElem_set_ne hne]
    · rw [List.getD_eq_default _ _ (by rw [List.length_set]; omega),
        List.getD_eq_default _ _ (by omega)]
  rw [hgd]
  exact ⟨recordVote_acl_mono s i _ h1,
    fun v hv => recordVote_acl_mono s i _ (h2 v hv)⟩

theorem processBatch_allows : ∀ (l : List Nat) (s s' : SurveyState),
    s.encryptedTallies.length = s.options.length →
    processBatch s l = Except.ok s' →
    (∀ p ∈ s.acl, p ∈ s'.acl) ∧
    (∀ j, TallyAllowedToAll s j → TallyAllowedToAll s' j) ∧
    (∀ j ∈ l, TallyAllowedToAll s' j)
  | [], s, s', hlen, h => by
    unfold processBatch at h
    injection h with h
    subst h
    exact ⟨fun p hp => hp, fun j hj => hj,
      fun j hj => absurd hj (List.not_mem_nil j)⟩
  | i :: rest, s, s', hlen, h => by
    unfold processBatch at h
    by_cases hi : s.options.length ≤ i
    · rw [if_pos hi] at h
      exact Except.noConfusion h
    · rw [if_neg hi] at h
      have hrp := recordVote_proj s i
      have hlen' : (recordVote s i).encryptedTallies.length =
          (recordVote s i).options.length := by
        rw [hrp.2.1, hrp.2.2.1, List.length_set]
        exact hlen
      have ih := processBatch_allows rest (recordVote s i) s' hlen' h
      have hiL : i < s.encryptedTallies.length := by rw [hlen]; omega
      refine ⟨?_, ?_, ?_⟩
      · intro p hp
        exact ih.1 p (recordVote_acl_mono s i p hp)
      · intro j hj
        by_cases hij : i = j
        · subst hij
          exact ih.2.1 i (recordVote_allows s i hiL)
        · exact ih.2.1 j (recordVote_preserves_allowed s i j hij hj)
      · intro j hj
        rcases List.mem_cons.mp hj with hj | hj
        · subst hj
          exact ih.2.1 j (recordVote_allows s j hiL)
        · exact ih.2.2 j hj

/-- Claim C5: every successful `submitResponse` leaves the changed tally allowed
to the admin and to every registered viewer; every option index touched by
a successful `submitBatchResponse` likewise; and every (re-)authorization
of a viewer grants that viewer decrypt permission on every currently
non-zero tally. -/
theorem tally_change_grants_access (ts sender : Nat) (s : SurveyState)
    (hlen : s.encryptedTallies.length = s.options.length) :
    (∀ (i ev : Nat) (pf : List Nat) (s' : SurveyState),
      submitResponse ts sender s i ev pf = Except.ok s' →
      TallyAllowedToAll s' i) ∧
    (∀ (idxs evs : List Nat) (pfs : List (List Nat)) (s' : SurveyState),
      submitBatchResponse ts sender s idxs evs pfs = Except.ok s' →
      ∀ j ∈ idxs, TallyAllowedToAll s' j) ∧
    (∀ (v : Address) (role e2 : Nat) (s' : SurveyState),
      authorizeViewerWithRole sender s v role e2 = Except.ok s' →
      ∀ t2 ∈ s.encryptedTallies, t2 ≠ 0 → (t2, v) ∈ s'.acl) ∧
    (∀ (v : Address) (s' : SurveyState),
      authorizeViewer sender s v = Except.ok s' →
      ∀ t2 ∈ s.encryptedTallies, t2 ≠ 0 → (t2, v) ∈ s'.acl) := by
  refine ⟨?_, ?_, ?_, ?_⟩
  · intro i ev pf s' h
    obtain ⟨-, -, hi, -, rfl⟩ := submitResponse_ok ts sender s i ev pf s' h
    exact recordVote_allows s i (by rw [hlen]; exact hi)
  · intro idxs evs pfs s' h j hj
    obtain ⟨-, -, -, -, s1, hp, rfl⟩ :=
      submitBatchResponse_ok ts sender s idxs evs pfs s' h
    exact (processBatch_allows idxs s s1 hlen hp).2.2 j hj
  · intro v role e2 s' h t2 ht ht0
    obtain ⟨-, hin⟩ := authorizeViewerWithRole_ok sender s v role e2 s' h
    exact (authorizeViewerInner_facts s v role e2 s' hin).2.2.2.2.2.2.2.2.2.2.2.2.2
      t2 ht ht0
  · intro v s' h t2 ht ht0
    obtain ⟨-, hin⟩ := authorizeViewer_ok sender s v s' h
    exact (authorizeViewerInner_facts s v 0 0 s' hin).2.2.2.2.2.2.2.2.2.2.2.2.2
      t2 ht ht0

def exSurveyC5 : SurveyState := applyOp (Op.submitResponse 0 2 0 7 [1]) exSurvey2

theorem tally_change_grants_access_witness :
    exSurvey2.encryptedTallies.length = exSurvey2.options.length ∧
    TallyAllowedToAll exSurveyC5 0 := by
  have h := tally_change_grants_access 0 2 exSurvey2 (by decide)
  exact ⟨by decide, h.1 0 7 [1] exSurveyC5 rfl⟩
